import Mathlib

/-
  Verification of the otssql core: predicate-to-query translation
  (`otssql/convert/where_clause.py`), access-path selection
  (`otssql/strategy/choose_tablestore_index.py`) and paginated execution
  (`otssql/sdk_api/do_query.py`), shallowly embedded in Lean.
-/

namespace Otssql

/-- The apostrophe character stripped from literal tokens by `.strip` in the source. -/
def quoteChar : Char := Char.ofNat 39

/-- Python `str.strip` with the apostrophe character: removes every leading and
trailing apostrophe, as applied to literal tokens throughout the source. -/
def stripQuotes (s : String) : String :=
  let cs := s.toList.dropWhile (fun c => c = quoteChar)
  String.mk ((cs.reverse.dropWhile (fun c => c = quoteChar)).reverse)

/-- Python `str.upper`, as applied to the token after `IS` in the source
(ASCII case mapping suffices for the NULL keyword). -/
def pyUpper (s : String) : String := String.mk (s.toList.map Char.toUpper)

/-- An operand of a predicate node: `ASTColumnNameExpression`, `ASTLiteralExpression`
(the `value` field holds the literal token, also returned by `as_string`), or any
other AST node kind. -/
inductive Expr where
  | column (name : String)
  | literal (value : String)
  | otherExpr
deriving DecidableEq

/-- The operand after `IN`: `ASTSubValueExpression` with its value tokens
(each read with `source()` in the code), or any other AST node kind. -/
inductive InAfter where
  | subValues (values : List String)
  | otherAfter
deriving DecidableEq

/-- The predicate AST nodes dispatched on by `change_ast_node_to_tablestore_query`,
`change_ast_node_to_primary_key_condition` and `get_condition_in_where_clause`:
`ASTOperatorConditionExpression` (the operator kept as its `source()` string),
`ASTBetweenExpression`, `ASTIsExpression`, `ASTInExpression`, `ASTLikeExpression`
and the four logical combinators. -/
inductive Cond where
  | comparison (op : String) (beforeValue afterValue : Expr)
  | between (beforeValue fromValue toValue : Expr) (isNot : Bool)
  | isExpr (beforeValue afterValue : Expr) (isNot : Bool)
  | inExpr (beforeValue : Expr) (afterValue : InAfter) (isNot : Bool)
  | likeExpr (beforeValue afterValue : Expr) (isNot : Bool)
  | andExpr (beforeValue afterValue : Cond)
  | orExpr (beforeValue afterValue : Cond)
  | notExpr (expression : Cond)
  | xorExpr (beforeValue afterValue : Cond)
deriving DecidableEq

/-- The errors raised by the embedded code: `NotSupportedError`, `ProgrammingError`,
the final `KeyError`, Python `AttributeError` (attribute access on `None`),
`AssertionError` and `TypeError`. -/
inductive Err where
  | notSupported (msg : String)
  | programming (msg : String)
  | keyError
  | attributeError
  | assertionError
  | typeError
deriving DecidableEq

/-- The tablestore structured query produced by `change_ast_node_to_tablestore_query`:
`MatchAllQuery`, `TermQuery`, `RangeQuery` (absent bounds are `none`, inclusivity
flags default to `false`), `WildcardQuery`, `ExistsQuery`, `TermsQuery`, `BoolQuery`. -/
inductive Query where
  | matchAll
  | term (fieldName columnValue : String)
  | range (fieldName : String) (rangeFrom rangeTo : Option String)
      (includeLower includeUpper : Bool)
  | wildcard (fieldName pattern : String)
  | existsQ (fieldName : String)
  | terms (fieldName : String) (columnValues : List String)
  | boolQ (mustQueries shouldQueries mustNotQueries : List Query)

/-- Shape error raised when a comparison is not one column name and one literal. -/
def shapeMsg : String := "暂不支持的表达式形式（比较运算符前后不是一个字段名、一个字面值）"

/-- `change_ast_node_to_tablestore_query` from `otssql/convert/where_clause.py`:
converts a predicate AST node into a tablestore search-index query. -/
def change_ast_node_to_tablestore_query : Cond → Except Err Query
  | .comparison op beforeValue afterValue =>
    if op = "=" then
      match beforeValue, afterValue with
      | .column c, .literal l => .ok (.term c (stripQuotes l))
      | .literal l, .column c => .ok (.term c (stripQuotes l))
      | _, _ => .error (.notSupported shapeMsg)
    else if op = "<" then
      match beforeValue, afterValue with
      | .column c, .literal l => .ok (.range c none (some (stripQuotes l)) false false)
      | .literal l, .column c => .ok (.range c (some (stripQuotes l)) none false false)
      | _, _ => .error (.notSupported shapeMsg)
    else if op = "<=" then
      match beforeValue, afterValue with
      | .column c, .literal l => .ok (.range c none (some (stripQuotes l)) false true)
      | .literal l, .column c => .ok (.range c (some (stripQuotes l)) none true false)
      | _, _ => .error (.notSupported shapeMsg)
    else if op = ">" then
      match beforeValue, afterValue with
      | .column c, .literal l => .ok (.range c (some (stripQuotes l)) none false false)
      | .literal l, .column c => .ok (.range c none (some (stripQuotes l)) false false)
      | _, _ => .error (.notSupported shapeMsg)
    else if op = ">=" then
      match beforeValue, afterValue with
      | .column c, .literal l => .ok (.range c (some (stripQuotes l)) none true false)
      | .literal l, .column c => .ok (.range c none (some (stripQuotes l)) false true)
      | _, _ => .error (.notSupported shapeMsg)
    else if op = "!=" then
      match beforeValue, afterValue with
      | .column c, .literal l => .ok (.boolQ [] [] [.term c (stripQuotes l)])
      | .literal l, .column c => .ok (.boolQ [] [] [.term c (stripQuotes l)])
      | _, _ => .error (.notSupported shapeMsg)
    else .error .keyError
  | .between beforeValue fromValue toValue isNot =>
    match beforeValue with
    | .column c =>
      match fromValue, toValue with
      | .literal lf, .literal lt =>
        let condition : Query :=
          .range c (some (stripQuotes lf)) (some (stripQuotes lt)) true true
        if isNot then .ok (.boolQ [] [] [condition]) else .ok condition
      | _, _ =>
        .error (.notSupported "暂不支持的表达式形式（BETWEEN ... AND ... 中的两个值不是字面值）")
    | _ => .error (.notSupported "暂不支持的表达式形式（BETWEEN 之前不是字段名）")
  | .isExpr beforeValue afterValue isNot =>
    match beforeValue with
    | .column c =>
      match afterValue with
      | .literal l =>
        if pyUpper l ≠ "NULL" then
          .error (.notSupported "暂不支持的表达式形式（IS 或 IS NOT 后不是 NULL）")
        else
          let condition : Query := .existsQ c
          if isNot then .ok condition else .ok (.boolQ [] [] [condition])
      | _ => .error (.notSupported "暂不支持的表达式形式（IS 或 IS NOT 后不是 NULL）")
    | _ => .error (.notSupported "暂不支持的表达式形式（IS 之前不是字段名）")
  | .inExpr beforeValue afterValue isNot =>
    match beforeValue with
    | .column c =>
      match afterValue with
      | .subValues vs =>
        let condition : Query := .terms c (vs.map stripQuotes)
        if isNot then .ok (.boolQ [] [] [condition]) else .ok condition
      | .otherAfter => .error (.notSupported "暂不支持的表达式形式（IN 之后不是值列表）")
    | _ => .error (.notSupported "暂不支持的表达式形式（IN 之前不是字段名）")
  | .likeExpr beforeValue afterValue isNot =>
    match beforeValue with
    | .column c =>
      match afterValue with
      | .literal l =>
        let condition : Query := .wildcard c ((stripQuotes l).replace "%" "*")
        if isNot then .ok (.boolQ [] [] [condition]) else .ok condition
      | _ => .error (.notSupported "暂不支持的表达式形式（LIKE 之后不是字面值）")
    | _ => .error (.notSupported "暂不支持的表达式形式（LIKE 之前不是字段名）")
  | .andExpr beforeValue afterValue =>
    match change_ast_node_to_tablestore_query beforeValue with
    | .error e => .error e
    | .ok condition1 =>
      match change_ast_node_to_tablestore_query afterValue with
      | .error e => .error e
      | .ok condition2 => .ok (.boolQ [condition1, condition2] [] [])
  | .orExpr beforeValue afterValue =>
    match change_ast_node_to_tablestore_query beforeValue with
    | .error e => .error e
    | .ok condition1 =>
      match change_ast_node_to_tablestore_query afterValue with
      | .error e => .error e
      | .ok condition2 => .ok (.boolQ [] [condition1, condition2] [])
  | .notExpr expression =>
    match change_ast_node_to_tablestore_query expression with
    | .error e => .error e
    | .ok condition1 => .ok (.boolQ [] [] [condition1])
  | .xorExpr _ _ => .error (.notSupported "无法使用多元索引（不支持逻辑异或的查询方法）")

/-- `convert_where_clause` from `otssql/convert/where_clause.py`: a null WHERE
clause yields `MatchAllQuery`, otherwise the clause condition is translated. -/
def convert_where_clause : Option Cond → Except Err Query
  | none => .ok .matchAll
  | some condition => change_ast_node_to_tablestore_query condition

/-- A primary-key constraint value: a single token or the value list of `IN`. -/
inductive Val where
  | s (v : String)
  | list (vs : List String)
deriving DecidableEq

/-- A constraint `(fieldName, operator, value)` produced by the extractors. -/
abbrev PKConstraint := String × String × Val

/-- `change_ast_node_to_primary_key_condition` from `otssql/convert/where_clause.py`:
the older extractor of per-field primary-key constraints from a predicate node. -/
def change_ast_node_to_primary_key_condition : Cond → Except Err (List PKConstraint)
  | .comparison op beforeValue afterValue =>
    if op = "=" then
      match beforeValue, afterValue with
      | .column c, .literal l => .ok [(c, "=", .s (stripQuotes l))]
      | .literal l, .column c => .ok [(c, "=", .s (stripQuotes l))]
      | _, _ => .error (.notSupported shapeMsg)
    else if op = "<" then
      match beforeValue, afterValue with
      | .column c, .literal l => .ok [(c, "<", .s (stripQuotes l))]
      | .literal l, .column c => .ok [(c, "<", .s (stripQuotes l))]
      | _, _ => .error (.notSupported shapeMsg)
    else if op = "<=" then
      match beforeValue, afterValue with
      | .column c, .literal l => .ok [(c, "<=", .s (stripQuotes l))]
      | .literal l, .column c => .ok [(c, "<=", .s (stripQuotes l))]
      | _, _ => .error (.notSupported shapeMsg)
    else if op = ">" then
      match beforeValue, afterValue with
      | .column c, .literal l => .ok [(c, ">", .s (stripQuotes l))]
      | .literal l, .column c => .ok [(c, ">", .s (stripQuotes l))]
      | _, _ => .error (.notSupported shapeMsg)
    else if op = ">=" then
      match beforeValue, afterValue with
      | .column c, .literal l => .ok [(c, ">=", .s (stripQuotes l))]
      | .literal l, .column c => .ok [(c, ">=", .s (stripQuotes l))]
      | _, _ => .error (.notSupported shapeMsg)
    else if op = "!=" then .error (.notSupported "主键索引不支持 != 运算符")
    else .error .keyError
  | .between beforeValue fromValue toValue _ =>
    match beforeValue with
    | .column c =>
      match fromValue, toValue with
      | .literal lf, .literal lt =>
        .ok [(c, ">=", .s (stripQuotes lf)), (c, "<=", .s (stripQuotes lt))]
      | _, _ =>
        .error (.notSupported "暂不支持的表达式形式（BETWEEN ... AND ... 中的两个值不是字面值）")
    | _ => .error (.notSupported "暂不支持的表达式形式（BETWEEN 之前不是字段名）")
  | .isExpr _ _ _ => .error (.notSupported "主键索引不支持 IS 运算符")
  | .inExpr _ _ _ => .error (.notSupported "主键索引不支持 IN 运算符")
  | .likeExpr _ _ _ => .error (.notSupported "主键索引不支持 LIKE 运算符")
  | .andExpr beforeValue afterValue =>
    match change_ast_node_to_primary_key_condition beforeValue with
    | .error e => .error e
    | .ok condition1 =>
      match change_ast_node_to_primary_key_condition afterValue with
      | .error e => .error e
      | .ok condition2 => .ok (condition1 ++ condition2)
  | .orExpr _ _ => .error (.notSupported "主键索引不支持 OR 运算符")
  | .notExpr _ => .error (.notSupported "主键索引不支持 NOT 运算符")
  | .xorExpr _ _ => .error (.notSupported "主键索引不支持 XOR 运算符")

/-- `get_condition_in_where_clause` from
`otssql/strategy/choose_tablestore_index.py`: the extractor of primary-key
constraints consumed by `choose_tablestore_index`; it accepts only the
column-first forms `<`, `>=`, `=` and the literal-first forms that rewrite to
them, and rejects BETWEEN / IS / LIKE / OR / NOT / XOR. -/
def get_condition_in_where_clause : Cond → Except Err (List PKConstraint)
  | .comparison op beforeValue afterValue =>
    if op = "=" then
      match beforeValue, afterValue with
      | .column c, .literal l => .ok [(c, "=", .s (stripQuotes l))]
      | .literal l, .column c => .ok [(c, "=", .s (stripQuotes l))]
      | _, _ => .error (.notSupported shapeMsg)
    else if op = "<" then
      match beforeValue, afterValue with
      | .column c, .literal l => .ok [(c, "<", .s (stripQuotes l))]
      | .literal _, .column _ =>
        .error (.notSupported "主键索引不支持 > 的查询方式，仅支持 >= 和 <")
      | _, _ => .error (.notSupported shapeMsg)
    else if op = "<=" then
      match beforeValue, afterValue with
      | .column _, .literal _ =>
        .error (.notSupported "主键索引不支持 <= 的查询方式，仅支持 < 和 >=")
      | .literal l, .column c => .ok [(c, ">=", .s (stripQuotes l))]
      | _, _ => .error (.notSupported shapeMsg)
    else if op = ">" then
      match beforeValue, afterValue with
      | .column _, .literal _ =>
        .error (.notSupported "主键索引不支持 > 的查询方式，仅支持 >= 和 <")
      | .literal l, .column c => .ok [(c, "<", .s (stripQuotes l))]
      | _, _ => .error (.notSupported shapeMsg)
    else if op = ">=" then
      match beforeValue, afterValue with
      | .column c, .literal l => .ok [(c, ">=", .s (stripQuotes l))]
      | .literal _, .column _ =>
        .error (.notSupported "主键索引不支持 <= 的查询方式，仅支持 < 和 >=")
      | _, _ => .error (.notSupported shapeMsg)
    else if op = "!=" then .error (.notSupported "主键索引不支持 != 运算符")
    else .error .keyError
  | .between _ _ _ _ => .error (.notSupported "主键索引不支持闭区间的 BETWEEN 表达式")
  | .isExpr _ _ _ => .error (.notSupported "主键索引不支持 IS 运算符")
  | .inExpr beforeValue afterValue _ =>
    match beforeValue with
    | .column c =>
      match afterValue with
      | .subValues vs => .ok [(c, "IN", .list (vs.map stripQuotes))]
      | .otherAfter => .error (.notSupported "暂不支持的表达式形式（IN 之后不是值列表）")
    | _ => .error (.notSupported "暂不支持的表达式形式（IN 之前不是字段名）")
  | .likeExpr _ _ _ => .error (.notSupported "主键索引不支持 LIKE 运算符")
  | .andExpr beforeValue afterValue =>
    match get_condition_in_where_clause beforeValue with
    | .error e => .error e
    | .ok condition1 =>
      match get_condition_in_where_clause afterValue with
      | .error e => .error e
      | .ok condition2 => .ok (condition1 ++ condition2)
  | .orExpr _ _ => .error (.notSupported "主键索引不支持 OR 运算符")
  | .notExpr _ => .error (.notSupported "主键索引不支持 NOT 运算符")
  | .xorExpr _ _ => .error (.notSupported "主键索引不支持 XOR 运算符")

/-- A primary-key bound: the store sentinels `INF_MIN` / `INF_MAX`, or a value. -/
inductive Bound where
  | infMin
  | infMax
  | val (v : Val)
deriving DecidableEq

/-- A primary-key tuple as handed to the store: ordered `(fieldName, value)` pairs. -/
abbrev RKey := List (String × Bound)

/-- The access descriptor `UseIndex` from `otssql/objects/use_index.py`, one
variant per `IndexType`: search index, primary-key single get, primary-key
batch get, primary-key range scan. -/
inductive UseIndex where
  | searchIndex (indexName : String)
  | primaryKeyGet (primaryKey : RKey)
  | primaryKeyBatch (rowsToGet : List RKey)
  | primaryKeyRange (startKey endKey : RKey) (direction : String)
deriving DecidableEq

/-- One remote search response: its rows (abstracted to opaque identifiers) and
the optional continuation token. -/
structure SearchResponse where
  rows : List Nat
  nextToken : Option Nat
deriving DecidableEq

/-- One remote range-scan response: its rows and the optional next start key. -/
structure RangeResponse where
  rows : List Nat
  nextStart : Option RKey
deriving DecidableEq

/-- The parameters of one remote call issued by the executor. -/
inductive CallRec where
  | searchC (offsetParam tokenParam : Option Nat) (limitParam : Nat)
  | getRowC
  | batchC
  | rangeC (startParam endParam : RKey) (limitParam : Nat)
deriving DecidableEq

/-- The sequence of responses the remote store gives to the executor's
successive calls, per operation kind; `getRowResponse = none` models a key
that does not exist in the store. -/
structure Remote where
  searchResponses : List SearchResponse
  getRowResponse : Option Nat
  batchRows : List Nat
  rangeResponses : List RangeResponse
deriving DecidableEq

/-- The row-yielding loop `for row in rows: yield row; n_yield += 1;
if n_yield >= limit: return` shared by `search` and `get_range`: returns the
rows yielded, the new `n_yield`, and whether the early `return` fired. -/
def yieldPage (limit : Nat) : Nat → List Nat → List Nat × Nat × Bool
  | n, [] => ([], n, false)
  | n, r :: rs =>
    if n + 1 ≥ limit then ([r], n + 1, true)
    else
      let rest := yieldPage limit (n + 1) rs
      (r :: rest.1, rest.2)

/-- The `while search_response.next_token` loop of `search` in
`otssql/sdk_api/do_query.py`: each iteration calls the store with the previous
token and page size `max_row_per_request` (no offset), consuming the next
response; the trace pairs each issued call with the rows it yielded. -/
def searchLoop (limit maxRow : Nat) :
    List SearchResponse → Nat → Option Nat → List (CallRec × List Nat)
  | _, _, none => []
  | [], _, some _ => []
  | resp :: rest, n, some tok =>
    let res := yieldPage limit n resp.rows
    let page := (CallRec.searchC none (some tok) maxRow, res.1)
    if res.2.2 then [page]
    else page :: searchLoop limit maxRow rest res.2.1 resp.nextToken

/-- `search` from `otssql/sdk_api/do_query.py`: the first call passes `offset`
and page size `min(limit, max_row_per_request)`; then the continuation loop. -/
def search (offset limit maxRow : Nat) : List SearchResponse → List (CallRec × List Nat)
  | [] => []
  | resp :: rest =>
    let res := yieldPage limit 0 resp.rows
    let page := (CallRec.searchC (some offset) none (min limit maxRow), res.1)
    if res.2.2 then [page]
    else page :: searchLoop limit maxRow rest res.2.1 resp.nextToken

/-- `get_row` from `otssql/sdk_api/do_query.py`: one `get_row` call, then an
unconditional `yield [return_row.primary_key, return_row.attribute_columns]`;
when the store returns no row (`return_row` is `None`) the attribute access
fails. -/
def get_row (resp : Option Nat) : Except Err (List (CallRec × List Nat)) :=
  match resp with
  | none => .error .attributeError
  | some r => .ok [(CallRec.getRowC, [r])]

/-- `get_batch_row` from `otssql/sdk_api/do_query.py`: one batched call, then
every returned row is yielded (no limit is applied). -/
def get_batch_row (rows : List Nat) : List (CallRec × List Nat) :=
  [(CallRec.batchC, rows)]

/-- The `while next_start_primary_key is not None` loop of `get_range`: each
iteration calls the store with the previous response's next start key and page
size `max_row_per_request`. -/
def getRangeLoop (limit maxRow : Nat) (endKey : RKey) :
    List RangeResponse → Nat → Option RKey → List (CallRec × List Nat)
  | _, _, none => []
  | [], _, some _ => []
  | resp :: rest, n, some k =>
    let res := yieldPage limit n resp.rows
    let page := (CallRec.rangeC k endKey maxRow, res.1)
    if res.2.2 then [page]
    else page :: getRangeLoop limit maxRow endKey rest res.2.1 resp.nextStart

/-- `get_range` from `otssql/sdk_api/do_query.py`: a nonzero `offset` raises
`NotSupportedError`; otherwise the first call uses the descriptor's start key
and page size `max_row_per_request`, then the next-start-key loop. -/
def get_range (startKey endKey : RKey) (offset limit maxRow : Nat)
    (resps : List RangeResponse) : Except Err (List (CallRec × List Nat)) :=
  if offset ≠ 0 then .error (.notSupported "主键索引不支持设置 LIMIT 子句的 offset")
  else .ok (
    match resps with
    | [] => []
    | resp :: rest =>
      let res := yieldPage limit 0 resp.rows
      let page := (CallRec.rangeC startKey endKey maxRow, res.1)
      if res.2.2 then [page]
      else page :: getRangeLoop limit maxRow endKey rest res.2.1 resp.nextStart)

/-- `do_query` from `otssql/sdk_api/do_query.py`: dispatches on the descriptor's
index type; the search branch first converts the statement's WHERE clause. -/
def do_query (whereClause : Option Cond) (useIndex : UseIndex)
    (offset limit maxRow : Nat) (remote : Remote) :
    Except Err (List (CallRec × List Nat)) :=
  match useIndex with
  | .searchIndex _ =>
    match convert_where_clause whereClause with
    | .error e => .error e
    | .ok _ => .ok (search offset limit maxRow remote.searchResponses)
  | .primaryKeyGet _ => get_row remote.getRowResponse
  | .primaryKeyBatch _ => .ok (get_batch_row remote.batchRows)
  | .primaryKeyRange startKey endKey _ =>
    get_range startKey endKey offset limit maxRow remote.rangeResponses

/-- Total number of rows yielded along an execution trace. -/
def sumLens (t : List (CallRec × List Nat)) : Nat := (t.map (fun p => p.2.length)).sum

/-- Statement kinds distinguished by `choose_tablestore_index`:
`ASTSingleSelectStatement`, `ASTUpdateStatement`, `ASTDeleteStatement`, or any
other statement class (rejected at entry). -/
inductive StmtKind where
  | singleSelect
  | update
  | delete
  | other
deriving DecidableEq

/-- The parts of a statement read by `choose_tablestore_index`: the column
names found in aggregate functions of the SELECT clause, the GROUP BY columns,
the SELECT-clause aliases, the WHERE clause condition, and the ORDER BY
columns. -/
structure Statement where
  kind : StmtKind
  aggColumns : List String
  groupByColumns : List String
  selectAliases : List String
  whereClause : Option Cond
  orderByColumns : List String
deriving DecidableEq

/-- The schema facts `choose_tablestore_index` fetches from the store: the
table's search indexes (`list_search_index` order) each with its field set
(`get_search_index_field_set`), and the ordered primary-key field list
(`get_primary_key_field_list`). -/
structure OtsClient where
  searchIndexes : List (String × List String)
  primaryKeyList : List String
deriving DecidableEq

/-- Column names mentioned in one operand expression. -/
def columnsInExpr : Expr → List String
  | .column n => [n]
  | _ => []

/-- Column names reachable in a predicate tree. -/
def columnsInCond : Cond → List String
  | .comparison _ a b => columnsInExpr a ++ columnsInExpr b
  | .between a f t _ => columnsInExpr a ++ columnsInExpr f ++ columnsInExpr t
  | .isExpr a b _ => columnsInExpr a ++ columnsInExpr b
  | .inExpr a _ _ => columnsInExpr a
  | .likeExpr a b _ => columnsInExpr a ++ columnsInExpr b
  | .andExpr a b => columnsInCond a ++ columnsInCond b
  | .orExpr a b => columnsInCond a ++ columnsInCond b
  | .notExpr x => columnsInCond x
  | .xorExpr a b => columnsInCond a ++ columnsInCond b

/-- Modelled from the spec: `otssql.metasequoia_enhance.get_columns_in_node` is
not under `src/`; per the spec it collects "all column references reachable in
the WHERE predicate", and an absent clause contributes none. -/
def columnsInWhere : Option Cond → List String
  | none => []
  | some c => columnsInCond c

/-- The `other_field_set` of `choose_tablestore_index`: for a single SELECT,
the aggregate-function columns without the `*` wildcard plus the GROUP BY
columns; empty for UPDATE / DELETE. -/
def otherFieldSetOf (stmt : Statement) : List String :=
  if stmt.kind = .singleSelect then
    stmt.aggColumns.filter (fun c => c ≠ "*") ++ stmt.groupByColumns
  else []

/-- The `alias_set` of `choose_tablestore_index`: the SELECT-clause aliases for
a single SELECT, empty otherwise. -/
def aliasSetOf (stmt : Statement) : List String :=
  if stmt.kind = .singleSelect then stmt.selectAliases else []

/-- The `order_field_set` of `choose_tablestore_index`: ORDER BY columns that
are not SELECT-clause aliases. -/
def orderFieldSetOf (stmt : Statement) : List String :=
  stmt.orderByColumns.filter (fun c => ¬ (aliasSetOf stmt).contains c)

/-- The `need_field_set` of `choose_tablestore_index`:
`other_field_set | where_field_set | order_field_set`. -/
def needFieldSetOf (stmt : Statement) : List String :=
  otherFieldSetOf stmt ++ columnsInWhere stmt.whereClause ++ orderFieldSetOf stmt

/-- Python set strict superset (`index_field_set > need_field_set`), on the
underlying sets of the two lists. -/
def strictSupersetOf (idx need : List String) : Bool :=
  need.all (fun f => idx.contains f) && !(idx.all (fun f => need.contains f))

/-- The index-selection loop of `choose_tablestore_index`: the first search
index whose field set is a strict superset of the needed fields wins. -/
def findQualifyingIndex : List (String × List String) → List String → Option String
  | [], _ => none
  | (indexName, fieldSet) :: rest, need =>
    if strictSupersetOf fieldSet need then some indexName
    else findQualifyingIndex rest need

/-- Lexicographic `<` on character lists: Python string comparison. -/
def charListLt : List Char → List Char → Bool
  | _, [] => false
  | [], _ :: _ => true
  | a :: l1, b :: l2 => if a = b then charListLt l1 l2 else decide (a < b)

/-- Python `<` on strings (lexicographic by code point). -/
def strLt (a b : String) : Bool := charListLt a.toList b.toList

/-- Python lexicographic `<` on lists of strings, used by `list.sort` on the
`IN` value lists. -/
def strListLt : List String → List String → Bool
  | _, [] => false
  | [], _ :: _ => true
  | a :: l1, b :: l2 => if a = b then strListLt l1 l2 else strLt a b

/-- Python `<` on constraint values; comparing a single value with a value
list raises in the source and is unreachable here (two constraints with equal
operators carry values of the same kind). -/
def valLt : Val → Val → Bool
  | .s a, .s b => strLt a b
  | .list a, .list b => strListLt a b
  | _, _ => false

/-- Python tuple `<` on `(operator, value)` pairs, as used by
`condition.sort()`. -/
def condPairLt (x y : String × Val) : Bool :=
  if x.1 = y.1 then valLt x.2 y.2 else strLt x.1 y.1

/-- `condition.sort()` on a two-element list of `(operator, value)` pairs. -/
def sortTwo (c1 c2 : String × Val) : (String × Val) × (String × Val) :=
  if condPairLt c2 c1 then (c2, c1) else (c1, c2)

/-- One element of `primary_key_conditions`: the tuple
`(field_name, op, min_value, max_value)` built per primary-key field. -/
structure PKEntry where
  field : String
  op : String
  minValue : Bound
  maxValue : Bound
deriving DecidableEq

/-- `condition_of_field[field_name]`: the `(op, value)` pairs of the extracted
constraints on one field, in extraction order. -/
def conditionOfField (conditions : List PKConstraint) (fieldName : String) :
    List (String × Val) :=
  (conditions.filter (fun c => c.1 = fieldName)).map (fun c => c.2)

/-- The per-field branch of the `for field_name in primary_key_list` loop of
`choose_tablestore_index`: builds the field's `primary_key_conditions` entry
and reports the `must_range` / `must_accurate` flags it sets. -/
def planField (fieldName : String) : List (String × Val) → Except Err (PKEntry × Bool × Bool)
  | [] => .ok (⟨fieldName, "RANGE", .infMin, .infMax⟩, true, false)
  | [c] =>
    if c.1 = "IN" then .ok (⟨fieldName, "IN", .val c.2, .val c.2⟩, false, true)
    else if c.1 = "=" then .ok (⟨fieldName, "=", .val c.2, .val c.2⟩, false, false)
    else if c.1 = "<" then .ok (⟨fieldName, "RANGE", .infMin, .val c.2⟩, true, false)
    else if c.1 = ">=" then .ok (⟨fieldName, "RANGE", .val c.2, .infMax⟩, true, false)
    else .error (.programming "未知状态的 op")
  | [c1, c2] =>
    let sorted := sortTwo c1 c2
    if sorted.1.1 ≠ "<" ∨ sorted.2.1 ≠ ">=" then
      .error (.notSupported "主键索引在同一个字段上包含 2 个条件时，必须一个是 >=，另一个是 <")
    else .ok (⟨fieldName, "RANGE", .val sorted.2.2, .val sorted.1.2⟩, true, false)
  | _ => .error (.notSupported "主键索引不支持在同一个字段上包含超过 2 个条件")

/-- The whole `for field_name in primary_key_list` loop: the entries in
primary-key order plus the accumulated `must_range` / `must_accurate` flags. -/
def planFields : List String → List PKConstraint → Except Err (List PKEntry × Bool × Bool)
  | [], _ => .ok ([], false, false)
  | fieldName :: rest, conditions =>
    match planField fieldName (conditionOfField conditions fieldName) with
    | .error e => .error e
    | .ok (entry, r1, a1) =>
      match planFields rest conditions with
      | .error e => .error e
      | .ok (entries, r2, a2) => .ok (entry :: entries, r1 || r2, a1 || a2)

/-- The non-range construction of `choose_tablestore_index`: the Cartesian
product, in primary-key order, of each field's fixed values (`=`) or value list
(`IN`); any other op fails the `assert`. -/
def buildKeys (lastPrimaryKey : List RKey) : List PKEntry → Except Err (List RKey)
  | [] => .ok lastPrimaryKey
  | entry :: rest =>
    if entry.op = "=" then
      buildKeys (lastPrimaryKey.map (fun key => key ++ [(entry.field, entry.minValue)])) rest
    else if entry.op = "IN" then
      match entry.minValue with
      | .val (.list vs) =>
        buildKeys
          (lastPrimaryKey.flatMap
            (fun key => vs.map (fun v => key ++ [(entry.field, Bound.val (Val.s v))])))
          rest
      | _ => .error .typeError
    else .error .assertionError

/-- The range construction of `choose_tablestore_index`: `start_key` collects
each entry's `min_value` and `end_key` its `max_value`, in primary-key order;
an op outside `=` / `RANGE` fails the `assert`. -/
def buildRange : List PKEntry → Except Err (RKey × RKey)
  | [] => .ok ([], [])
  | entry :: rest =>
    if entry.op = "=" ∨ entry.op = "RANGE" then
      match buildRange rest with
      | .error e => .error e
      | .ok (startKey, endKey) =>
        .ok ((entry.field, entry.minValue) :: startKey,
          (entry.field, entry.maxValue) :: endKey)
    else .error .assertionError

/-- The descriptor-construction tail of `choose_tablestore_index` (lines
104-188): group the extracted constraints by field, plan every primary-key
field, reject mixed accurate/range modes, then build a Get / Batch descriptor
(Cartesian product) or a forward Range descriptor. -/
def build_use_index (pkList : List String) (conditions : List PKConstraint) :
    Except Err UseIndex :=
  match planFields pkList conditions with
  | .error e => .error e
  | .ok (entries, mustRange, mustAccurate) =>
    if mustAccurate && mustRange then
      .error (.notSupported "主键索引不支持在同时包含 IN 条件的范围查询条件")
    else if !mustRange then
      match buildKeys [[]] entries with
      | .error e => .error e
      | .ok rowsToGet =>
        if rowsToGet.length = 1 then .ok (.primaryKeyGet (rowsToGet.headD []))
        else .ok (.primaryKeyBatch rowsToGet)
    else
      match buildRange entries with
      | .error e => .error e
      | .ok (startKey, endKey) => .ok (.primaryKeyRange startKey endKey "FORWARD")

/-- Line 104 of `choose_tablestore_index` onward: `statement.where_clause
.condition` is read unconditionally (an absent clause fails the attribute
access), the constraints are extracted, and the descriptor is built. -/
def primary_key_tail (pkList : List String) : Option Cond → Except Err UseIndex
  | none => .error .attributeError
  | some condition =>
    match get_condition_in_where_clause condition with
    | .error e => .error e
    | .ok conditions => build_use_index pkList conditions

/-- `choose_tablestore_index` from
`otssql/strategy/choose_tablestore_index.py`: reject unsupported statement
kinds; compute the needed field sets; return the first search index whose
field set strictly covers them; otherwise fall back to the primary-key path
after checking aggregation, coverage and ordering. -/
def choose_tablestore_index (client : OtsClient) (stmt : Statement) :
    Except Err UseIndex :=
  if stmt.kind = .other then .error (.notSupported "不支持的语句类型")
  else
    match findQualifyingIndex client.searchIndexes (needFieldSetOf stmt) with
    | some indexName => .ok (.searchIndex indexName)
    | none =>
      if otherFieldSetOf stmt ≠ [] then
        .error (.programming "没有能够满足查询条件的多元索引；或 SQL 语句中包含聚合函数、GROUP BY 导致无法使用主键索引")
      else if (columnsInWhere stmt.whereClause).filter
          (fun f => ¬ client.primaryKeyList.contains f) ≠ [] then
        .error (.programming "没有能够满足查询条件的多元索引和主键索引")
      else if orderFieldSetOf stmt ≠ [] then
        .error (.notSupported "主键索引暂时不支持 ORDER BY 子句")
      else primary_key_tail client.primaryKeyList stmt.whereClause

end Otssql

namespace Otssql

/-- C4 counterexample: on the extractor actually consumed by the Access-Path
Selector (`get_condition_in_where_clause`), a Between node with a column operand
and two literal bounds does not return two constraints — it is rejected with a
NotSupportedError. -/
theorem c4_counterexample :
    get_condition_in_where_clause
        (Cond.between (Expr.column "a") (Expr.literal "1") (Expr.literal "5") false)
      = .error (.notSupported "主键索引不支持闭区间的 BETWEEN 表达式") := by
  rfl

/-- C4 (amended): the legacy extractor `change_ast_node_to_primary_key_condition`
returns exactly two constraints for a column/literal Between node — a `>=`
constraint carrying the from-value and a `<=` constraint carrying the to-value —
while the extractor used by the Access-Path Selector
(`get_condition_in_where_clause`) rejects BETWEEN with an unsupported-operation
error. -/
theorem c4_between_two_constraints (name fromV toV : String) (neg : Bool) :
    change_ast_node_to_primary_key_condition
        (Cond.between (Expr.column name) (Expr.literal fromV) (Expr.literal toV) neg)
      = .ok [(name, ">=", .s (stripQuotes fromV)), (name, "<=", .s (stripQuotes toV))]
    ∧ get_condition_in_where_clause
        (Cond.between (Expr.column name) (Expr.literal fromV) (Expr.literal toV) neg)
      = .error (.notSupported "主键索引不支持闭区间的 BETWEEN 表达式") := by
  exact ⟨rfl, rfl⟩

/-- C5: on the primary-key extraction path, a comparison with one column and one
literal is accepted exactly in the column-first forms `<`, `>=`, `=` and in the
literal-first forms that rewrite to them (`literal > field` to `field < literal`,
`literal <= field` to `field >= literal`, `literal = field` to
`field = literal`); the four remaining orientations fail with an
unsupported-orientation error naming the unsupported canonical form, and `!=`
always fails. -/
theorem c5_orientation (f v : String) (x y : Expr) :
    get_condition_in_where_clause (.comparison "<" (.column f) (.literal v))
      = .ok [(f, "<", .s (stripQuotes v))]
    ∧ get_condition_in_where_clause (.comparison ">=" (.column f) (.literal v))
      = .ok [(f, ">=", .s (stripQuotes v))]
    ∧ get_condition_in_where_clause (.comparison "=" (.column f) (.literal v))
      = .ok [(f, "=", .s (stripQuotes v))]
    ∧ get_condition_in_where_clause (.comparison "=" (.literal v) (.column f))
      = .ok [(f, "=", .s (stripQuotes v))]
    ∧ get_condition_in_where_clause (.comparison ">" (.literal v) (.column f))
      = .ok [(f, "<", .s (stripQuotes v))]
    ∧ get_condition_in_where_clause (.comparison "<=" (.literal v) (.column f))
      = .ok [(f, ">=", .s (stripQuotes v))]
    ∧ get_condition_in_where_clause (.comparison "<=" (.column f) (.literal v))
      = .error (.notSupported "主键索引不支持 <= 的查询方式，仅支持 < 和 >=")
    ∧ get_condition_in_where_clause (.comparison ">" (.column f) (.literal v))
      = .error (.notSupported "主键索引不支持 > 的查询方式，仅支持 >= 和 <")
    ∧ get_condition_in_where_clause (.comparison "<" (.literal v) (.column f))
      = .error (.notSupported "主键索引不支持 > 的查询方式，仅支持 >= 和 <")
    ∧ get_condition_in_where_clause (.comparison ">=" (.literal v) (.column f))
      = .error (.notSupported "主键索引不支持 <= 的查询方式，仅支持 < 和 >=")
    ∧ get_condition_in_where_clause (.comparison "!=" x y)
      = .error (.notSupported "主键索引不支持 != 运算符") := by
  refine ⟨rfl, rfl, rfl, rfl, rfl, rfl, rfl, rfl, rfl, rfl, ?_⟩
  rfl

/-- C6: translating an Is node whose left operand is a column and whose right
operand is the NULL literal yields `Exists(column)` when the node is negated
(IS NOT NULL) and `Bool(mustNot = [Exists(column)])` when it is not negated
(IS NULL). -/
theorem c6_is_null_polarity (name : String) :
    change_ast_node_to_tablestore_query
        (Cond.isExpr (Expr.column name) (Expr.literal "NULL") true)
      = .ok (.existsQ name)
    ∧ change_ast_node_to_tablestore_query
        (Cond.isExpr (Expr.column name) (Expr.literal "NULL") false)
      = .ok (.boolQ [] [] [.existsQ name]) := by
  exact ⟨rfl, rfl⟩

/-- C9: for each inequality operator, translating the literal-first mirrored
form produces exactly the same Range query — same field, same bound side, same
inclusivity — as the column-first form with the mirrored operator. -/
theorem c9_mirror_symmetry (c v : String) :
    change_ast_node_to_tablestore_query (.comparison "<" (.literal v) (.column c))
      = change_ast_node_to_tablestore_query (.comparison ">" (.column c) (.literal v))
    ∧ change_ast_node_to_tablestore_query (.comparison ">" (.literal v) (.column c))
      = change_ast_node_to_tablestore_query (.comparison "<" (.column c) (.literal v))
    ∧ change_ast_node_to_tablestore_query (.comparison "<=" (.literal v) (.column c))
      = change_ast_node_to_tablestore_query (.comparison ">=" (.column c) (.literal v))
    ∧ change_ast_node_to_tablestore_query (.comparison ">=" (.literal v) (.column c))
      = change_ast_node_to_tablestore_query (.comparison "<=" (.column c) (.literal v)) := by
  exact ⟨rfl, rfl, rfl, rfl⟩

theorem sumLens_nil : sumLens [] = 0 := rfl

theorem sumLens_cons (c : CallRec) (rows : List Nat) (t : List (CallRec × List Nat)) :
    sumLens ((c, rows) :: t) = rows.length + sumLens t := by
  simp [sumLens]

/-- Bookkeeping of one page of yields: the new `n_yield` counts the yielded rows,
the early return fires only at or above `limit`, and starting below `limit` the
count never passes `limit`. -/
theorem yieldPage_spec (limit : Nat) (rows : List Nat) : ∀ n : Nat,
    (yieldPage limit n rows).2.1 = n + (yieldPage limit n rows).1.length
    ∧ ((yieldPage limit n rows).2.2 = true → limit ≤ (yieldPage limit n rows).2.1)
    ∧ (n < limit → (yieldPage limit n rows).2.2 = false →
        (yieldPage limit n rows).2.1 < limit)
    ∧ (n < limit → (yieldPage limit n rows).2.1 ≤ limit) := by
  induction rows with
  | nil =>
    intro n
    simp [yieldPage]
    omega
  | cons r rs ih =>
    intro n
    by_cases h : n + 1 ≥ limit
    · simp [yieldPage, h]
      omega
    · have ihn := ih (n + 1)
      simp [yieldPage, h]
      refine ⟨by omega, fun hs => ihn.2.1 hs, fun _ hf => ihn.2.2.1 (by omega) hf,
        fun _ => ihn.2.2.2 (by omega)⟩

/-- While the continuation loop runs, the running count stays at most `limit`,
and every call is issued strictly before the count reaches `limit`. -/
theorem searchLoop_bound (limit maxRow : Nat) :
    ∀ (resps : List SearchResponse) (n : Nat) (tok : Option Nat), n < limit →
      n + sumLens (searchLoop limit maxRow resps n tok) ≤ limit
      ∧ ∀ k, k < (searchLoop limit maxRow resps n tok).length →
          n + sumLens ((searchLoop limit maxRow resps n tok).take k) < limit := by
  intro resps
  induction resps with
  | nil =>
    intro n tok hn
    cases tok <;> simp [searchLoop, sumLens] <;> omega
  | cons resp rest ih =>
    intro n tok hn
    cases tok with
    | none =>
      simp [searchLoop, sumLens]
      omega
    | some t =>
      have ys := yieldPage_spec limit resp.rows n
      by_cases hstop : (yieldPage limit n resp.rows).2.2
      · simp only [searchLoop, hstop, if_true]
        constructor
        · rw [sumLens_cons, sumLens_nil]
          have h1 := ys.1
          have h2 := ys.2.2.2 hn
          omega
        · intro k hk
          simp only [List.length_cons, List.length_nil] at hk
          interval_cases k
          simpa [sumLens] using hn
      · have hn' : (yieldPage limit n resp.rows).2.1 < limit :=
          ys.2.2.1 hn (by simpa using hstop)
        have ihn := ih (yieldPage limit n resp.rows).2.1 resp.nextToken hn'
        simp only [searchLoop, hstop, if_false, Bool.false_eq_true]
        constructor
        · rw [sumLens_cons]
          have h1 := ys.1
          have h2 := ihn.1
          omega
        · intro k hk
          cases k with
          | zero =>
            simpa [sumLens] using hn
          | succ j =>
            simp only [List.length_cons] at hk
            have hj := ihn.2 j (by omega)
            rw [List.take_succ_cons, sumLens_cons]
            have h1 := ys.1
            omega

/-- The search executor yields at most `limit` rows, and each of its remote
calls is issued strictly before the `limit`-th row has been yielded. -/
theorem search_bound (offset limit maxRow : Nat) (resps : List SearchResponse)
    (h : 0 < limit) :
    sumLens (search offset limit maxRow resps) ≤ limit
    ∧ ∀ k, k < (search offset limit maxRow resps).length →
        sumLens ((search offset limit maxRow resps).take k) < limit := by
  cases resps with
  | nil => simp [search, sumLens]
  | cons resp rest =>
    have ys := yieldPage_spec limit resp.rows 0
    by_cases hstop : (yieldPage limit 0 resp.rows).2.2
    · simp only [search, hstop, if_true]
      constructor
      · rw [sumLens_cons, sumLens_nil]
        have h1 := ys.1
        have h2 := ys.2.2.2 h
        omega
      · intro k hk
        simp only [List.length_cons, List.length_nil] at hk
        interval_cases k
        simpa [sumLens] using h
    · have hn' : (yieldPage limit 0 resp.rows).2.1 < limit :=
        ys.2.2.1 h (by simpa using hstop)
      have ihn := searchLoop_bound limit maxRow rest
        (yieldPage limit 0 resp.rows).2.1 resp.nextToken hn'
      simp only [search, hstop, if_false, Bool.false_eq_true]
      constructor
      · rw [sumLens_cons]
        have h1 := ys.1
        have h2 := ihn.1
        omega
      · intro k hk
        cases k with
        | zero => simpa [sumLens] using h
        | succ j =>
          simp only [List.length_cons] at hk
          have hj := ihn.2 j (by omega)
          rw [List.take_succ_cons, sumLens_cons]
          have h1 := ys.1
          omega

/-- Same loop invariant for the range-scan continuation loop. -/
theorem getRangeLoop_bound (limit maxRow : Nat) (endKey : RKey) :
    ∀ (resps : List RangeResponse) (n : Nat) (tok : Option RKey), n < limit →
      n + sumLens (getRangeLoop limit maxRow endKey resps n tok) ≤ limit
      ∧ ∀ k, k < (getRangeLoop limit maxRow endKey resps n tok).length →
          n + sumLens ((getRangeLoop limit maxRow endKey resps n tok).take k) < limit := by
  intro resps
  induction resps with
  | nil =>
    intro n tok hn
    cases tok <;> simp [getRangeLoop, sumLens] <;> omega
  | cons resp rest ih =>
    intro n tok hn
    cases tok with
    | none =>
      simp [getRangeLoop, sumLens]
      omega
    | some k0 =>
      have ys := yieldPage_spec limit resp.rows n
      by_cases hstop : (yieldPage limit n resp.rows).2.2
      · simp only [getRangeLoop, hstop, if_true]
        constructor
        · rw [sumLens_cons, sumLens_nil]
          have h1 := ys.1
          have h2 := ys.2.2.2 hn
          omega
        · intro k hk
          simp only [List.length_cons, List.length_nil] at hk
          interval_cases k
          simpa [sumLens] using hn
      · have hn' : (yieldPage limit n resp.rows).2.1 < limit :=
          ys.2.2.1 hn (by simpa using hstop)
        have ihn := ih (yieldPage limit n resp.rows).2.1 resp.nextStart hn'
        simp only [getRangeLoop, hstop, if_false, Bool.false_eq_true]
        constructor
        · rw [sumLens_cons]
          have h1 := ys.1
          have h2 := ihn.1
          omega
        · intro k hk
          cases k with
          | zero =>
            simpa [sumLens] using hn
          | succ j =>
            simp only [List.length_cons] at hk
            have hj := ihn.2 j (by omega)
            rw [List.take_succ_cons, sumLens_cons]
            have h1 := ys.1
            omega

/-- The range-scan executor (offset 0) yields at most `limit` rows, and each of
its remote calls is issued strictly before the `limit`-th row has been yielded. -/
theorem get_range_bound (startKey endKey : RKey) (limit maxRow : Nat)
    (resps : List RangeResponse) (t : List (CallRec × List Nat)) (h : 0 < limit)
    (ht : get_range startKey endKey 0 limit maxRow resps = .ok t) :
    sumLens t ≤ limit ∧ ∀ k, k < t.length → sumLens (t.take k) < limit := by
  rw [get_range.eq_def, if_neg (by simp)] at ht
  cases ht
  cases resps with
  | nil => simp [sumLens]
  | cons resp rest =>
    have ys := yieldPage_spec limit resp.rows 0
    by_cases hstop : (yieldPage limit 0 resp.rows).2.2
    · simp only [hstop, if_true]
      constructor
      · rw [sumLens_cons, sumLens_nil]
        have h1 := ys.1
        have h2 := ys.2.2.2 h
        omega
      · intro k hk
        simp only [List.length_cons, List.length_nil] at hk
        interval_cases k
        simpa [sumLens] using h
    · have hn' : (yieldPage limit 0 resp.rows).2.1 < limit :=
        ys.2.2.1 h (by simpa using hstop)
      have ihn := getRangeLoop_bound limit maxRow endKey rest
        (yieldPage limit 0 resp.rows).2.1 resp.nextStart hn'
      simp only [hstop, if_false, Bool.false_eq_true]
      constructor
      · rw [sumLens_cons]
        have h1 := ys.1
        have h2 := ihn.1
        omega
      · intro k hk
        cases k with
        | zero => simpa [sumLens] using h
        | succ j =>
          simp only [List.length_cons] at hk
          have hj := ihn.2 j (by omega)
          rw [List.take_succ_cons, sumLens_cons]
          have h1 := ys.1
          omega

/-- C1 counterexample: the claim fails for the PrimaryKeyBatch descriptor —
with `limit = 1`, `do_query` on a batch of two keys yields both returned rows,
exceeding `limit`. -/
theorem c1_counterexample :
    do_query none
        (.primaryKeyBatch [[("id", .val (.s "a"))], [("id", .val (.s "b"))]])
        0 1 10 ⟨[], none, [7, 8], []⟩
      = .ok [(CallRec.batchC, [7, 8])]
    ∧ ¬ sumLens [(CallRec.batchC, [7, 8])] ≤ 1 := by
  exact ⟨rfl, by decide⟩

/-- C1 (amended): for `limit ≥ 1`, the SearchIndex and PrimaryKeyRange
executors yield at most `limit` rows and issue every remote call strictly
before the `limit`-th row has been yielded, for every sequence of remote
responses; the PrimaryKeyGet executor issues one call yielding one row when the
key exists; the PrimaryKeyBatch executor issues exactly one remote call but
yields every row of the batch response, with no `limit` cap. -/
theorem c1_limit_cap (offset limit maxRow : Nat) (sresps : List SearchResponse)
    (startKey endKey : RKey) (rresps : List RangeResponse) (h : 1 ≤ limit) :
    (sumLens (search offset limit maxRow sresps) ≤ limit
      ∧ ∀ k, k < (search offset limit maxRow sresps).length →
          sumLens ((search offset limit maxRow sresps).take k) < limit)
    ∧ (∀ t, get_range startKey endKey 0 limit maxRow rresps = .ok t →
        sumLens t ≤ limit ∧ ∀ k, k < t.length → sumLens (t.take k) < limit)
    ∧ (∀ r, get_row (some r) = .ok [(CallRec.getRowC, [r])])
    ∧ (∀ rows, get_batch_row rows = [(CallRec.batchC, rows)]) := by
  refine ⟨search_bound offset limit maxRow sresps h, ?_, fun _ => rfl, fun _ => rfl⟩
  intro t ht
  exact get_range_bound startKey endKey limit maxRow rresps t h ht

theorem c1_limit_cap_witness :
    (1 : Nat) ≤ 1
    ∧ ((sumLens (search 0 1 1 []) ≤ 1
        ∧ ∀ k, k < (search 0 1 1 []).length →
            sumLens ((search 0 1 1 []).take k) < 1)
      ∧ (∀ t, get_range [] [] 0 1 1 [] = .ok t →
          sumLens t ≤ 1 ∧ ∀ k, k < t.length → sumLens (t.take k) < 1)
      ∧ (∀ r, get_row (some r) = .ok [(CallRec.getRowC, [r])])
      ∧ (∀ rows, get_batch_row rows = [(CallRec.batchC, rows)])) :=
  ⟨by decide, c1_limit_cap 0 1 1 [] [] [] [] (by decide)⟩

/-- C3: running a SearchIndex descriptor with `limit = 5`,
`maxRowsPerRequest = 2` against three remote pages of two rows each, with
continuation tokens on the first two responses only, issues exactly three
remote calls and yields exactly five rows; the first call passes the offset
with page size `min(limit, maxRowsPerRequest) = 2`, and each later call passes
the previous response's token without an offset, with page size 2. -/
theorem c3_search_scenario (o r1 r2 r3 r4 r5 r6 t1 t2 : Nat) :
    do_query none (.searchIndex "idx") o 5 2
        ⟨[⟨[r1, r2], some t1⟩, ⟨[r3, r4], some t2⟩, ⟨[r5, r6], none⟩], none, [], []⟩
      = .ok [(.searchC (some o) none 2, [r1, r2]),
             (.searchC none (some t1) 2, [r3, r4]),
             (.searchC none (some t2) 2, [r5])] := by
  rfl

/-- C8 (code bug): `get_row` issues a single remote call and, when the key
exists, yields exactly that one row; but when the store has no row for the key
the code dereferences the missing row and fails with an attribute error instead
of producing zero rows. -/
theorem c8_get_row_missing_key :
    get_row none = .error Err.attributeError
    ∧ ∀ r, get_row (some r) = .ok [(CallRec.getRowC, [r])] := by
  exact ⟨rfl, fun _ => rfl⟩

/-- Any descriptor returned by the selector either is a search index or was
built by the primary-key tail from a successfully extracted WHERE condition. -/
theorem choose_ok_inv (client : OtsClient) (stmt : Statement) (d : UseIndex)
    (hok : choose_tablestore_index client stmt = .ok d) :
    (∃ n, d = .searchIndex n) ∨
    (∃ cond, stmt.whereClause = some cond ∧
      ∃ conds, get_condition_in_where_clause cond = .ok conds ∧
        build_use_index client.primaryKeyList conds = .ok d) := by
  unfold choose_tablestore_index at hok
  by_cases hk : stmt.kind = .other
  · rw [if_pos hk] at hok
    exact (Except.noConfusion hok)
  · rw [if_neg hk] at hok
    rcases hidx : findQualifyingIndex client.searchIndexes (needFieldSetOf stmt) with
        _ | indexName
    · rw [hidx] at hok
      by_cases h1 : otherFieldSetOf stmt ≠ []
      · exact absurd (if_pos h1 ▸ hok) (by simp)
      · rw [if_neg h1] at hok
        by_cases h2 : (columnsInWhere stmt.whereClause).filter
            (fun f => ¬ client.primaryKeyList.contains f) ≠ []
        · exact absurd (if_pos h2 ▸ hok) (by simp)
        · rw [if_neg h2] at hok
          by_cases h3 : orderFieldSetOf stmt ≠ []
          · exact absurd (if_pos h3 ▸ hok) (by simp)
          · rw [if_neg h3] at hok
            rcases hwc : stmt.whereClause with _ | condition
            · rw [hwc] at hok
              exact (Except.noConfusion hok)
            · rw [hwc] at hok
              simp only [primary_key_tail] at hok
              rcases hgc : get_condition_in_where_clause condition with e0 | conds
              · rw [hgc] at hok
                exact (Except.noConfusion hok)
              · rw [hgc] at hok
                exact Or.inr ⟨condition, rfl, conds, hgc, hok⟩
    · rw [hidx] at hok
      injection hok with h
      exact Or.inl ⟨indexName, h.symm⟩

/-- If the primary-key tail returns a range descriptor, it came out of
`buildRange` on the planned entries, with direction FORWARD. -/
theorem build_use_index_range_inv (pkList : List String) (conds : List PKConstraint)
    (s e : RKey) (dir : String)
    (h : build_use_index pkList conds = .ok (.primaryKeyRange s e dir)) :
    ∃ entries mr ma, planFields pkList conds = .ok (entries, mr, ma) ∧
      buildRange entries = .ok (s, e) ∧ dir = "FORWARD" := by
  unfold build_use_index at h
  rcases hpf : planFields pkList conds with e0 | ⟨entries, mr, ma⟩
  · rw [hpf] at h
    exact (Except.noConfusion h)
  · rw [hpf] at h
    dsimp only at h
    by_cases hmix : (ma && mr) = true
    · exact absurd (if_pos hmix ▸ h) (by simp)
    · rw [if_neg hmix] at h
      by_cases hr : (!mr) = true
      · rw [if_pos hr] at h
        rcases hbk : buildKeys [[]] entries with e1 | rowsToGet
        · rw [hbk] at h
          exact (Except.noConfusion h)
        · rw [hbk] at h
          dsimp only at h
          by_cases hlen : rowsToGet.length = 1
          · exact absurd (if_pos hlen ▸ h) (by simp)
          · exact absurd (if_neg hlen ▸ h) (by simp)
      · rw [if_neg hr] at h
        rcases hbr : buildRange entries with e1 | ⟨sk, ek⟩
        · rw [hbr] at h
          exact (Except.noConfusion h)
        · rw [hbr] at h
          dsimp only at h
          injection h with h1
          obtain ⟨hs, he, hd⟩ := UseIndex.primaryKeyRange.injEq .. |>.mp h1
          exact ⟨entries, mr, ma, rfl, by rw [← hs, ← he]; exact hbr, hd.symm⟩

/-- Every `primary_key_conditions` entry carries the field it was planned for. -/
theorem planField_field (fieldName : String) (l : List (String × Val))
    (en : PKEntry) (b1 b2 : Bool)
    (h : planField fieldName l = .ok (en, b1, b2)) : en.field = fieldName := by
  unfold planField at h
  dsimp only at h
  repeat' split at h
  all_goals
    first
      | exact (Except.noConfusion h)
      | (simp only [Except.ok.injEq, Prod.mk.injEq] at h
         rw [← h.1])

/-- The planned entries list the primary-key fields in table order. -/
theorem planFields_fields : ∀ (pkList : List String) (conds : List PKConstraint)
    (entries : List PKEntry) (mr ma : Bool),
    planFields pkList conds = .ok (entries, mr, ma) →
    entries.map (fun en => en.field) = pkList := by
  intro pkList
  induction pkList with
  | nil =>
    intro conds entries mr ma h
    simp only [planFields, Except.ok.injEq, Prod.mk.injEq] at h
    rw [← h.1]
    rfl
  | cons f rest ih =>
    intro conds entries mr ma h
    unfold planFields at h
    rcases h1 : planField f (conditionOfField conds f) with e0 | ⟨entry, r1, a1⟩
    · rw [h1] at h
      exact (Except.noConfusion h)
    · rw [h1] at h
      rcases h2 : planFields rest conds with e0 | ⟨entries2, r2, a2⟩
      · rw [h2] at h
        exact (Except.noConfusion h)
      · rw [h2] at h
        simp only [Except.ok.injEq, Prod.mk.injEq] at h
        rw [← h.1]
        simp only [List.map_cons]
        rw [planField_field f _ entry r1 a1 h1, ih conds entries2 r2 a2 h2]

/-- A field with no extracted constraint has an empty `condition_of_field` list. -/
theorem conditionOfField_eq_nil (conds : List PKConstraint) (f : String)
    (h : f ∉ conds.map (fun c => c.1)) : conditionOfField conds f = [] := by
  unfold conditionOfField
  have hf : conds.filter (fun c => c.1 = f) = [] := by
    rw [List.filter_eq_nil_iff]
    intro a ha
    simp only [decide_eq_true_eq]
    intro hx
    exact h (List.mem_map.mpr ⟨a, ha, hx⟩)
  rw [hf]
  rfl

/-- A primary-key field not constrained by the WHERE clause is planned as the
full open range between the store sentinels. -/
theorem planFields_sentinel : ∀ (pkList : List String) (conds : List PKConstraint)
    (entries : List PKEntry) (mr ma : Bool),
    planFields pkList conds = .ok (entries, mr, ma) →
    ∀ en ∈ entries, en.field ∉ conds.map (fun c => c.1) →
      en = ⟨en.field, "RANGE", .infMin, .infMax⟩ := by
  intro pkList
  induction pkList with
  | nil =>
    intro conds entries mr ma h en hen
    simp only [planFields, Except.ok.injEq, Prod.mk.injEq] at h
    rw [← h.1] at hen
    exact absurd hen (List.not_mem_nil en)
  | cons f rest ih =>
    intro conds entries mr ma h en hen hnot
    unfold planFields at h
    rcases h1 : planField f (conditionOfField conds f) with e0 | ⟨entry, r1, a1⟩
    · rw [h1] at h
      exact (Except.noConfusion h)
    · rw [h1] at h
      rcases h2 : planFields rest conds with e0 | ⟨entries2, r2, a2⟩
      · rw [h2] at h
        exact (Except.noConfusion h)
      · rw [h2] at h
        simp only [Except.ok.injEq, Prod.mk.injEq] at h
        rw [← h.1] at hen
        rcases List.mem_cons.mp hen with hhd | htl
        · have hf : en.field = f := by
            rw [hhd]
            exact planField_field f _ entry r1 a1 h1
          rw [hf] at hnot
          rw [conditionOfField_eq_nil conds f hnot] at h1
          simp only [planField, Except.ok.injEq, Prod.mk.injEq] at h1
          rw [hhd, ← h1.1]
        · exact ih conds entries2 r2 a2 h2 en htl hnot

/-- `start_key` collects every entry's `min_value` and `end_key` every entry's
`max_value`, in entry order. -/
theorem buildRange_eq : ∀ (entries : List PKEntry) (s e : RKey),
    buildRange entries = .ok (s, e) →
    s = entries.map (fun en => (en.field, en.minValue))
    ∧ e = entries.map (fun en => (en.field, en.maxValue)) := by
  intro entries
  induction entries with
  | nil =>
    intro s e h
    simp only [buildRange, Except.ok.injEq, Prod.mk.injEq] at h
    exact ⟨h.1.symm, h.2.symm⟩
  | cons en rest ih =>
    intro s e h
    unfold buildRange at h
    by_cases hop : en.op = "=" ∨ en.op = "RANGE"
    · rw [if_pos hop] at h
      rcases hbr : buildRange rest with e0 | ⟨sk, ek⟩
      · rw [hbr] at h
        exact (Except.noConfusion h)
      · rw [hbr] at h
        simp only [Except.ok.injEq, Prod.mk.injEq] at h
        obtain ⟨ihs, ihe⟩ := ih sk ek hbr
        rw [← h.1, ← h.2, ihs, ihe]
        exact ⟨rfl, rfl⟩
    · rw [if_neg hop] at h
      exact (Except.noConfusion h)

/-- C2: whenever the selector returns a PrimaryKeyRange descriptor, the start
and end keys list exactly the table's primary-key fields in declared order,
every field left unconstrained by the extracted WHERE constraints carries the
INF_MIN / INF_MAX sentinels, and the direction is FORWARD. -/
theorem c2_range_descriptor_shape (client : OtsClient) (stmt : Statement)
    (cond : Cond) (conds : List PKConstraint) (s e : RKey) (dir : String)
    (hwc : stmt.whereClause = some cond)
    (hex : get_condition_in_where_clause cond = .ok conds)
    (hok : choose_tablestore_index client stmt = .ok (.primaryKeyRange s e dir)) :
    s.map Prod.fst = client.primaryKeyList
    ∧ e.map Prod.fst = client.primaryKeyList
    ∧ dir = "FORWARD"
    ∧ (∀ p ∈ s, p.1 ∉ conds.map (fun c => c.1) → p.2 = Bound.infMin)
    ∧ (∀ p ∈ e, p.1 ∉ conds.map (fun c => c.1) → p.2 = Bound.infMax) := by
  rcases choose_ok_inv client stmt _ hok with ⟨n, hn⟩ | ⟨cond2, hwc2, conds2, hex2, hbuild⟩
  · exact absurd hn (by simp)
  · rw [hwc] at hwc2
    injection hwc2 with hc
    subst hc
    rw [hex] at hex2
    injection hex2 with hc2
    subst hc2
    obtain ⟨entries, mr, ma, hpf, hbr, hdir⟩ :=
      build_use_index_range_inv _ _ _ _ _ hbuild
    obtain ⟨hs, he⟩ := buildRange_eq entries s e hbr
    have hfields := planFields_fields _ _ _ _ _ hpf
    refine ⟨?_, ?_, hdir, ?_, ?_⟩
    · rw [hs, List.map_map]
      exact hfields
    · rw [he, List.map_map]
      exact hfields
    · intro p hp hnot
      rw [hs] at hp
      obtain ⟨en, hen, hpe⟩ := List.mem_map.mp hp
      have hf : p.1 = en.field := by rw [← hpe]
      rw [hf] at hnot
      have hsen := planFields_sentinel _ _ _ _ _ hpf en hen hnot
      rw [← hpe]
      exact congrArg PKEntry.minValue hsen
    · intro p hp hnot
      rw [he] at hp
      obtain ⟨en, hen, hpe⟩ := List.mem_map.mp hp
      have hf : p.1 = en.field := by rw [← hpe]
      rw [hf] at hnot
      have hsen := planFields_sentinel _ _ _ _ _ hpf en hen hnot
      rw [← hpe]
      exact congrArg PKEntry.maxValue hsen

theorem c2_range_descriptor_shape_witness :
    (Statement.mk .delete [] [] []
        (some (.comparison "=" (.column "region") (.literal "us"))) []).whereClause
      = some (.comparison "=" (.column "region") (.literal "us"))
    ∧ get_condition_in_where_clause
        (.comparison "=" (.column "region") (.literal "us"))
      = .ok [("region", "=", .s "us")]
    ∧ choose_tablestore_index ⟨[], ["region", "id"]⟩
        (Statement.mk .delete [] [] []
          (some (.comparison "=" (.column "region") (.literal "us"))) [])
      = .ok (.primaryKeyRange
          [("region", .val (.s "us")), ("id", .infMin)]
          [("region", .val (.s "us")), ("id", .infMax)] "FORWARD")
    ∧ (([("region", Bound.val (.s "us")), ("id", Bound.infMin)] : RKey).map Prod.fst
        = (OtsClient.mk [] ["region", "id"]).primaryKeyList
      ∧ ([("region", Bound.val (.s "us")), ("id", Bound.infMax)] : RKey).map Prod.fst
        = (OtsClient.mk [] ["region", "id"]).primaryKeyList
      ∧ "FORWARD" = "FORWARD"
      ∧ (∀ p ∈ ([("region", Bound.val (.s "us")), ("id", Bound.infMin)] : RKey),
          p.1 ∉ ([("region", "=", Val.s "us")] : List PKConstraint).map (fun c => c.1) →
            p.2 = Bound.infMin)
      ∧ (∀ p ∈ ([("region", Bound.val (.s "us")), ("id", Bound.infMax)] : RKey),
          p.1 ∉ ([("region", "=", Val.s "us")] : List PKConstraint).map (fun c => c.1) →
            p.2 = Bound.infMax)) :=
  ⟨rfl, rfl, rfl,
    c2_range_descriptor_shape ⟨[], ["region", "id"]⟩
      (Statement.mk .delete [] [] []
        (some (.comparison "=" (.column "region") (.literal "us"))) [])
      (.comparison "=" (.column "region") (.literal "us"))
      [("region", "=", .s "us")]
      [("region", .val (.s "us")), ("id", .infMin)]
      [("region", .val (.s "us")), ("id", .infMax)] "FORWARD" rfl rfl rfl⟩

/-- C7: when both the accurate mode (an `IN` constraint) and the range mode (a
range-derived bound or unconstrained field) arise while planning the
primary-key path, the selector fails with the unsupported-operation error and
returns no descriptor. -/
theorem c7_mixed_modes_rejected (client : OtsClient) (stmt : Statement)
    (cond : Cond) (conds : List PKConstraint) (entries : List PKEntry)
    (hk : stmt.kind ≠ .other)
    (hidx : findQualifyingIndex client.searchIndexes (needFieldSetOf stmt) = none)
    (hother : otherFieldSetOf stmt = [])
    (hwhere : (columnsInWhere stmt.whereClause).filter
        (fun f => ¬ client.primaryKeyList.contains f) = [])
    (horder : orderFieldSetOf stmt = [])
    (hwc : stmt.whereClause = some cond)
    (hex : get_condition_in_where_clause cond = .ok conds)
    (hplan : planFields client.primaryKeyList conds = .ok (entries, true, true)) :
    choose_tablestore_index client stmt
      = .error (.notSupported "主键索引不支持在同时包含 IN 条件的范围查询条件") := by
  unfold choose_tablestore_index
  rw [if_neg hk, hidx, if_neg (by simp [hother]), if_neg (by rw [hwhere]; simp),
    if_neg (by simp [horder]), hwc]
  simp only [primary_key_tail]
  rw [hex]
  dsimp only
  unfold build_use_index
  rw [hplan]
  rfl

theorem c7_mixed_modes_rejected_witness :
    (Statement.mk .delete [] [] []
        (some (.andExpr (.inExpr (.column "a") (.subValues ["1", "2"]) false)
          (.comparison ">=" (.column "b") (.literal "3")))) []).kind ≠ .other
    ∧ findQualifyingIndex (OtsClient.mk [] ["a", "b"]).searchIndexes
        (needFieldSetOf (Statement.mk .delete [] [] []
          (some (.andExpr (.inExpr (.column "a") (.subValues ["1", "2"]) false)
            (.comparison ">=" (.column "b") (.literal "3")))) [])) = none
    ∧ planFields ["a", "b"]
        [("a", "IN", .list ["1", "2"]), ("b", ">=", .s "3")]
      = .ok ([⟨"a", "IN", .val (.list ["1", "2"]), .val (.list ["1", "2"])⟩,
              ⟨"b", "RANGE", .val (.s "3"), .infMax⟩], true, true)
    ∧ choose_tablestore_index (OtsClient.mk [] ["a", "b"])
        (Statement.mk .delete [] [] []
          (some (.andExpr (.inExpr (.column "a") (.subValues ["1", "2"]) false)
            (.comparison ">=" (.column "b") (.literal "3")))) [])
      = .error (.notSupported "主键索引不支持在同时包含 IN 条件的范围查询条件") :=
  ⟨by simp, rfl, rfl,
    c7_mixed_modes_rejected (OtsClient.mk [] ["a", "b"])
      (Statement.mk .delete [] [] []
        (some (.andExpr (.inExpr (.column "a") (.subValues ["1", "2"]) false)
          (.comparison ">=" (.column "b") (.literal "3")))) [])
      (.andExpr (.inExpr (.column "a") (.subValues ["1", "2"]) false)
        (.comparison ">=" (.column "b") (.literal "3")))
      [("a", "IN", .list ["1", "2"]), ("b", ">=", .s "3")]
      [⟨"a", "IN", .val (.list ["1", "2"]), .val (.list ["1", "2"])⟩,
        ⟨"b", "RANGE", .val (.s "3"), .infMax⟩]
      (by simp) rfl rfl rfl rfl rfl rfl rfl⟩

/-- C10: when the statement has no WHERE clause, the primary-key planning step
reads the clause's condition unconditionally and fails, so the selector never
returns a primary-key descriptor — any descriptor it returns for a WHERE-less
statement is a search index. -/
theorem c10_no_descriptor_without_where (client : OtsClient) (stmt : Statement)
    (hwc : stmt.whereClause = none) :
    ∀ d, choose_tablestore_index client stmt = .ok d → ∃ n, d = .searchIndex n := by
  intro d hok
  rcases choose_ok_inv client stmt d hok with h | ⟨cond, hwc2, _⟩
  · exact h
  · rw [hwc] at hwc2
    exact (Option.noConfusion hwc2)

theorem c10_no_descriptor_without_where_witness :
    (Statement.mk .delete [] [] [] none []).whereClause = none
    ∧ ∃ n, UseIndex.searchIndex "idx1" = .searchIndex n :=
  ⟨rfl,
    c10_no_descriptor_without_where (OtsClient.mk [("idx1", ["a"])] ["pk1"])
      (Statement.mk .delete [] [] [] none []) rfl
      (UseIndex.searchIndex "idx1") rfl⟩

end Otssql
